import Mathlib

/-!
# Verification of the astro-mail-obfuscation encode/decode engine

Shallow embedding of the obfuscation integration: the build-time document
transform (`index.ts`, v2.3) and the page-side runtime decoder (`client.ts`).

Conventions of the embedding:

* Byte sequences (Node `Buffer`, `Uint8Array`) are `List Nat` whose entries
  are `< 256`; a store into a typed array truncates with `% 256`.
* JavaScript strings are `List Char` where character identity matters
  (encoded payloads, tag names) and `List Nat` of character codes where only
  the codes feed the arithmetic (keys, salts, decoded byte views).  For the
  ASCII keys and salts the integration generates, `charCodeAt` and the UTF-8
  bytes of `Buffer.from(key, "utf-8")` coincide, so one code list serves
  both sides.
* The draws of `crypto.randomBytes` and `Math.random` are explicit
  parameters; every function is a pure function of them.
-/

namespace AstroMailObfuscation

/-- JS truthiness of a nullable string: `null`/`undefined` and `""` are falsy,
every non-empty string is truthy. -/
def jsTruthy (o : Option (List α)) : Bool :=
  match o with
  | none => false
  | some l => !l.isEmpty

/-- Character codes of an ASCII string literal (its UTF-8 bytes). -/
def strBytes (s : String) : List Nat := s.toList.map Char.toNat

/-- The XOR loop shared by methods 1 and 2, starting at index `i`:
`out[i] = (buf[i] ^ key[i % key.length]) & 0xff`.  The same loop appears in
the encoder (`encryptionMethods["1"|"2"]`) and the decoder
(`decryptionMethods["1"|"2"]`). -/
def xorCyclicFrom (key : List Nat) : Nat → List Nat → List Nat
  | _, [] => []
  | i, b :: rest =>
      (b ^^^ key.getD (i % key.length) 0) % 256 :: xorCyclicFrom key (i + 1) rest

def xorCyclic (key content : List Nat) : List Nat := xorCyclicFrom key 0 content

/-- The double-XOR loop of method 3, starting at index `i`:
`out[i] = (buf[i] ^ key[i % keyLen] ^ salt[i % saltLen]) & 0xff`.  Identical
in the encoder (`encryptionMethods["3"]`) and the decoder
(`decryptionMethods["3"]`). -/
def xorCyclic2From (key salt : List Nat) : Nat → List Nat → List Nat
  | _, [] => []
  | i, b :: rest =>
      (b ^^^ key.getD (i % key.length) 0 ^^^ salt.getD (i % salt.length) 0) % 256 ::
        xorCyclic2From key salt (i + 1) rest

def xorCyclic2 (key salt content : List Nat) : List Nat := xorCyclic2From key salt 0 content

/-! ## Hexadecimal (method 1 representation) -/

def hexChars : List Char := "0123456789abcdef".toList

def hexCharOf (d : Nat) : Char := hexChars.getD d '0'

/-- `Buffer.prototype.toString("hex")`: two lowercase hex digits per byte. -/
def bytesToHexChars : List Nat → List Char
  | [] => []
  | b :: rest => hexCharOf (b / 16) :: hexCharOf (b % 16) :: bytesToHexChars rest

/-- Value of one hex digit as `parseInt(·, 16)` reads it (on the hex
alphabet; other characters map to 0, which the encoder never emits). -/
def hexDigitVal (c : Char) : Nat :=
  if '0' ≤ c ∧ c ≤ '9' then c.toNat - 48
  else if 'a' ≤ c ∧ c ≤ 'f' then c.toNat - 87
  else if 'A' ≤ c ∧ c ≤ 'F' then c.toNat - 55
  else 0

/-- Loop body of `hexStringToUint8Array`:
`array[i] = parseInt(hex.substring(2*i, 2*i + 2), 16)`. -/
def hexPairsToBytes : List Char → List Nat
  | c1 :: c2 :: rest => (hexDigitVal c1 * 16 + hexDigitVal c2) :: hexPairsToBytes rest
  | _ => []

/-! ## Base64 (method 2 representation)

`Buffer.prototype.toString("base64")` produces standard RFC 4648 base64 with
`=` padding; `atob` inverts it.  Both are modelled on 3-byte / 4-character
groups. -/

def b64Chars : List Char :=
  "ABCDEFGHIJKLMNOPQRSTUVWXYZabcdefghijklmnopqrstuvwxyz0123456789+/".toList

def b64CharOf (n : Nat) : Char := b64Chars.getD n 'A'

/-- Index of a character in an alphabet (the `charMap` lookups of the
runtime decoder). -/
def charIndexFrom (c : Char) : Nat → List Char → Option Nat
  | _, [] => none
  | i, d :: rest => if d = c then some i else charIndexFrom c (i + 1) rest

def b64ValOf (c : Char) : Option Nat := charIndexFrom c 0 b64Chars

def b64EncodeBytes : List Nat → List Char
  | [] => []
  | [a] => [b64CharOf (a / 4), b64CharOf (a % 4 * 16), '=', '=']
  | [a, b] => [b64CharOf (a / 4), b64CharOf (a % 4 * 16 + b / 16), b64CharOf (b % 16 * 4), '=']
  | a :: b :: c :: rest =>
      b64CharOf (a / 4) :: b64CharOf (a % 4 * 16 + b / 16) ::
        b64CharOf (b % 16 * 4 + c / 64) :: b64CharOf (c % 64) :: b64EncodeBytes rest

/-- `atob` followed by `Uint8Array.from(·, c => c.charCodeAt(0))`, on the
padded base64 shape the encoder emits; a malformed string yields `none`
(the decoder catches the exception). -/
def b64DecodeChars : List Char → Option (List Nat)
  | [] => some []
  | [c1, c2, '=', '='] =>
      match b64ValOf c1, b64ValOf c2 with
      | some v1, some v2 => some [v1 * 4 + v2 / 16]
      | _, _ => none
  | [c1, c2, c3, '='] =>
      match b64ValOf c1, b64ValOf c2, b64ValOf c3 with
      | some v1, some v2, some v3 => some [v1 * 4 + v2 / 16, v2 % 16 * 16 + v3 / 4]
      | _, _, _ => none
  | c1 :: c2 :: c3 :: c4 :: rest =>
      match b64ValOf c1, b64ValOf c2, b64ValOf c3, b64ValOf c4, b64DecodeChars rest with
      | some v1, some v2, some v3, some v4, some tail =>
          some ((v1 * 4 + v2 / 16) :: (v2 % 16 * 16 + v3 / 4) :: (v3 % 4 * 64 + v4) :: tail)
      | _, _, _, _, _ => none
  | _ => none

/-! ## Base62 (method 3 representation) -/

def b62Chars : List Char :=
  "0123456789ABCDEFGHIJKLMNOPQRSTUVWXYZabcdefghijklmnopqrstuvwxyz".toList

def b62CharOf (n : Nat) : Char := b62Chars.getD n '0'

def b62ValOf (c : Char) : Option Nat := charIndexFrom c 0 b62Chars

/-- Big-endian value of a byte buffer: the meaning of
`BigInt("0x" + buffer.toString("hex"))` in `base62Encode`. -/
def bytesToNatBE : List Nat → Nat
  | [] => 0
  | b :: rest => b * 256 ^ rest.length + bytesToNatBE rest

/-- Big-endian base-62 digits of `v` (empty for 0), the digits produced by
the `while (value > 0)` loop of `base62Encode`.  The first argument is
recursion fuel; `v` itself always suffices since the value shrinks by a
factor of 62 each step. -/
def natToB62ValsFuel : Nat → Nat → List Nat
  | 0, _ => []
  | fuel + 1, v => if v = 0 then [] else natToB62ValsFuel fuel (v / 62) ++ [v % 62]

def natToB62Vals (v : Nat) : List Nat := natToB62ValsFuel v v

/-- `base62Encode`: the buffer is read as one big unsigned integer and
re-expressed in base 62; a zero value yields `"0"`.  Note leading zero
bytes of the buffer do not contribute to the integer. -/
def base62Encode (bs : List Nat) : List Char :=
  let value := bytesToNatBE bs
  if value = 0 then ['0'] else (natToB62Vals value).map b62CharOf

/-- Accumulating loop of `base62Decode`:
`value = value * 62 + charMap.get(char)`, failing on a character outside
the alphabet. -/
def base62DecodeValGo : Nat → List Char → Option Nat
  | v, [] => some v
  | v, c :: rest =>
      match b62ValOf c with
      | none => none
      | some d => base62DecodeValGo (v * 62 + d) rest

/-- Big-endian base-16 digits of `v` (empty for 0); fuel as in
`natToB62ValsFuel`. -/
def natToHexValsFuel : Nat → Nat → List Nat
  | 0, _ => []
  | fuel + 1, v => if v = 0 then [] else natToHexValsFuel fuel (v / 16) ++ [v % 16]

/-- `value.toString(16)`: lowercase hex digits of the value, `"0"` for 0. -/
def natToHexChars (v : Nat) : List Char :=
  if v = 0 then ['0'] else (natToHexValsFuel v v).map hexCharOf

/-- `base62Decode`: read the base-62 value, print it in hex, left-pad the
hex string to even length with one `'0'`, then read byte pairs. -/
def base62DecodeBytes (data : List Char) : Option (List Nat) :=
  (base62DecodeValGo 0 data).map fun v =>
    let hex := natToHexChars v
    let hex2 := if hex.length % 2 = 1 then '0' :: hex else hex
    hexPairsToBytes hex2

/-! ## The three encode transforms (`encryptionMethods` of `index.ts`) -/

/-- Method 1 encoder: XOR with the cyclic key, hex output.  `undefined`
(`none`) on empty content or key. -/
def encrypt1 (content key : List Nat) : Option (List Char) :=
  if content.isEmpty || key.isEmpty then none
  else some (bytesToHexChars (xorCyclic key content))

/-- The encoder's reversal decision for method 2:
`key.charCodeAt(key.length - 1) > key.charCodeAt(key.length - 2)`.  For a
key shorter than two characters the out-of-range `charCodeAt` is `NaN` and
every comparison with `NaN` is false. -/
def encryptShouldReverse (key : List Nat) : Bool :=
  if key.length < 2 then false
  else decide (key.getD (key.length - 1) 0 > key.getD (key.length - 2) 0)

/-- Method 2 encoder: XOR with the cyclic key, base64 output, conditionally
reversed according to the key's last two character codes. -/
def encrypt2 (content key : List Nat) : Option (List Char) :=
  if content.isEmpty || key.isEmpty then none
  else
    let base64 := b64EncodeBytes (xorCyclic key content)
    some (if encryptShouldReverse key then base64.reverse else base64)

/-- Method 3 encoder: double XOR with cyclic key and salt, base62 output.
`undefined` (`none`) on empty content, key or salt. -/
def encrypt3 (content key salt : List Nat) : Option (List Char) :=
  if content.isEmpty || key.isEmpty || salt.isEmpty then none
  else some (base62Encode (xorCyclic2 key salt content))

/-! ## The three decode transforms (`decryptionMethods` of `client.ts`) -/

/-- Method 1 decoder: hex-decode, XOR with the cyclic key.  An odd-length
hex string makes `new Uint8Array(hexString.length / 2)` throw (non-integer
length), which the decoder catches, returning `null`. -/
def decrypt1 (data : List Char) (key : List Nat) : Option (List Nat) :=
  if data.length % 2 = 1 then none
  else some (xorCyclic key (hexPairsToBytes data))

/-- The decoder's reversal decision for method 2 — the same comparison of
the key's last two character codes as at encode time. -/
def decryptShouldReverse (key : List Nat) : Bool :=
  if key.length < 2 then false
  else decide (key.getD (key.length - 1) 0 > key.getD (key.length - 2) 0)

/-- Method 2 decoder: undo the conditional reversal, base64-decode, XOR
with the cyclic key.  `null` when `atob` throws. -/
def decrypt2 (data : List Char) (key : List Nat) : Option (List Nat) :=
  let base64 := if decryptShouldReverse key then data.reverse else data
  (b64DecodeChars base64).map (xorCyclic key)

/-- Method 3 decoder: require a salt, base62-decode, double XOR with cyclic
key and salt.  `null` when the salt is missing or a character falls outside
the base62 alphabet. -/
def decrypt3 (data : List Char) (key salt : List Nat) : Option (List Nat) :=
  if salt.isEmpty then none
  else (base62DecodeBytes data).map (xorCyclic2 key salt)

/-- A sample 16-byte key encoded as the 32-character hex string the secret
generator would produce, viewed through its character codes. -/
def keyA : List Nat := strBytes "00112233445566778899aabbccddeeff"

/-! ## Secret generator (`generateUserKey`, `generateUserSalt`) -/

/-- `randomBytes(16).toString("hex")`, with the 16 random bytes supplied
explicitly. -/
def generateUserKey (randBytes : List Nat) : List Char := bytesToHexChars randBytes

/-- The alphanumeric alphabet of `generateUserSalt` (uppercase, lowercase,
digits — a different order than the base62 alphabet). -/
def saltChars : List Char :=
  "ABCDEFGHIJKLMNOPQRSTUVWXYZabcdefghijklmnopqrstuvwxyz0123456789".toList

/-- `generateUserSalt(length)`: one alphabet character per random byte,
selected by `bytes[i] % chars.length`; the random bytes are supplied
explicitly (one per requested character). -/
def generateUserSalt (randBytes : List Nat) : List Char :=
  randBytes.map fun b => saltChars.getD (b % saltChars.length) 'A'

/-- `userOptions.userKey || generateUserKey()`: a missing or empty user key
falls back to a freshly generated one. -/
def resolveUserKey (userKey : Option (List Char)) (randK : List Nat) : List Char :=
  if jsTruthy userKey then userKey.getD [] else generateUserKey randK

/-- `userOptions.userSalt || generateUserSalt(8)`: a missing or empty user
salt falls back to a freshly generated 8-character one. -/
def resolveUserSalt (userSalt : Option (List Char)) (randS : List Nat) : List Char :=
  if jsTruthy userSalt then userSalt.getD [] else generateUserSalt randS

/-! ## Build-time document transform (`modifyHtml` of `index.ts`) -/

/-- `String.prototype.toLowerCase` restricted to the ASCII letters that make
up tag names. -/
def asciiLowerChar (c : Char) : Char :=
  if 'A' ≤ c ∧ c ≤ 'Z' then Char.ofNat (c.toNat + 32) else c

def lowerStr (s : List Char) : List Char := s.map asciiLowerChar

/-- The built-in allowed-tag whitelist. -/
def defaultAllowedTags : List (List Char) :=
  ["h1", "h2", "h3", "h4", "h5", "h6", "p", "a", "label", "ul", "ol", "li",
    "strong", "b", "em", "i", "span"].map String.toList

/-- `mergeAllowedTags`: defaults then user tags, all lowercased, inserted
into a `Set` (first occurrence wins, insertion order kept). -/
def mergeAllowedTags (userTags : Option (List (List Char))) : List (List Char) :=
  (defaultAllowedTags.map lowerStr ++ (userTags.getD []).map lowerStr).foldl
    (fun acc t => if t ∈ acc then acc else acc ++ [t]) []

/-- One markup element as the build-time transform sees it: its tag name,
the attributes it reads and writes, and its serialized inner markup
(`$el.html()`), viewed as bytes. -/
structure BElement where
  tagName : List Char
  dataObfuscation : Option (List Char)
  href : Option (List Nat)
  data7391 : Option (List Char)
  data5647 : Option (List Char)
  inner : List Nat
deriving DecidableEq

/-- One parsed document: its elements (in document order) and the contents
of its `meta[name="4758"]` head tags. -/
structure BDoc where
  elements : List BElement
  metas : List (List Nat)
deriving DecidableEq

/-- Diagnostics the transform can emit for one element. -/
inductive BuildLog where
  | skippedTag (tag : List Char)
  | encryptFailed
deriving DecidableEq

/-- `(Math.floor(Math.random() * 3) + 1).toString()`, with the draw
`Math.floor(Math.random() * 3)` supplied as `pick % 3`. -/
def pickMethodStr (pick : Nat) : List Char :=
  if pick % 3 = 0 then ['1'] else if pick % 3 = 1 then ['2'] else ['3']

/-- `validTypes.includes(type) ? type : <random>`: an explicit `"1"`, `"2"`
or `"3"` is honored, anything else resolves to a random method. -/
def resolvedMethod (pick : Nat) (type : List Char) : List Char :=
  if type = ['1'] ∨ type = ['2'] ∨ type = ['3'] then type else pickMethodStr pick

/-- `encryptionMethods[method].encrypt`, dispatched on the resolved method
string (always one of `"1"`, `"2"`, `"3"` inside the transform). -/
def encryptFor (m : List Char) (content key salt : List Nat) : Option (List Char) :=
  if m = ['1'] then encrypt1 content key
  else if m = ['2'] then encrypt2 content key
  else if m = ['3'] then encrypt3 content key salt
  else none

/-- The serialized children after `$el.empty()` followed by
`$el.append("<noscript>" + fallbackText + "</noscript>")`. -/
def noscriptWrap (fallback : List Nat) : List Nat :=
  strBytes "<noscript>" ++ fallback ++ strBytes "</noscript>"

/-- The per-element body of `modifyHtml`'s `.each` loop.  Elements without
the trigger attribute are not matched by the `"[data-obfuscation]"`
selector and pass through untouched.  Returns the rewritten element, a flag
recording whether it was transformed, and the diagnostics emitted. -/
def processElement (tags : List (List Char)) (key salt fallback : List Nat) (pick : Nat)
    (el : BElement) : BElement × Bool × List BuildLog :=
  if el.dataObfuscation.isNone then (el, false, [])
  else
    let tagName := lowerStr el.tagName
    if tagName ∈ tags then
      let href := el.href.getD []
      let type := el.dataObfuscation.getD []
      let method := resolvedMethod pick type
      let content := el.inner
      let encryptedHref := if href.isEmpty then none else encryptFor method href key salt
      let encryptedContent := encryptFor method content key salt
      if jsTruthy encryptedContent then
        ({ el with
            inner := noscriptWrap fallback
            data7391 := some (encryptedContent.getD [])
            dataObfuscation := some method
            data5647 := if jsTruthy encryptedHref then some (encryptedHref.getD []) else el.data5647
            href := if jsTruthy encryptedHref then none else el.href }, true, [])
      else (el, false, [BuildLog.encryptFailed])
    else (el, false, [BuildLog.skippedTag tagName])

/-- The `.each` loop over all selected elements, threading the index of the
per-element random draw.  Returns the rewritten elements, whether any
element was transformed, and the concatenated diagnostics. -/
def runElements (tags : List (List Char)) (key salt fallback : List Nat) (rand : Nat → Nat) :
    Nat → List BElement → List BElement × Bool × List BuildLog
  | _, [] => ([], false, [])
  | i, el :: rest =>
      let r := processElement tags key salt fallback (rand i) el
      let rr := runElements tags key salt fallback rand (i + 1) rest
      (r.1 :: rr.1, r.2.1 || rr.2.1, r.2.2 ++ rr.2.2)

/-- `modifyHtml`: rewrite every selected element, then — if the document now
contains any element bearing a `data-5647` or `data-7391` attribute —
append one `meta[name="4758"]` tag whose content is the key concatenated
with the salt. -/
def modifyHtml (tags : List (List Char)) (key salt fallback : List Nat) (rand : Nat → Nat)
    (d : BDoc) : BDoc × List BuildLog :=
  let r := runElements tags key salt fallback rand 0 d.elements
  let hasMarker := (r.1.any fun e => e.data5647.isSome) || (r.1.any fun e => e.data7391.isSome)
  ({ elements := r.1, metas := if hasMarker then d.metas ++ [key ++ salt] else d.metas }, r.2.2)

/-! ## Runtime decoder (`deobfuscateContent` of `client.ts`) -/

/-- One live DOM element as the runtime decoder sees it: the payload
attributes it reads, the `href` it may set, whether a `noscript` child is
present, and its inner markup (decoded byte view). -/
structure RtElement where
  data7391 : Option (List Char)
  data5647 : Option (List Char)
  dataObf : Option (List Char)
  href : Option (List Nat)
  hasNoscript : Bool
  inner : List Nat
deriving DecidableEq

/-- The live document: the content of the `meta[name="4758"]` tag (if any)
and the elements in document order. -/
structure RtDoc where
  meta4758 : Option (List Char)
  elements : List RtElement
deriving DecidableEq

/-- `getKeyAndSalt`: read the meta tag content and split off the fixed
8-character salt suffix (`content.slice(0, -8)` / `content.slice(-8)`);
`{}` when the tag is absent or empty. -/
def getKeyAndSalt (d : RtDoc) : Option (List Char × List Char) :=
  match d.meta4758 with
  | none => none
  | some content =>
      if content.isEmpty then none
      else some (content.take (content.length - 8), content.drop (content.length - 8))

/-- Whether `decryptionMethods[type]` is defined. -/
def rtKnownMethod (t : List Char) : Bool :=
  t = ['1'] || t = ['2'] || t = ['3']

/-- Dispatch to the decoder for a resolved method id. -/
def rtDecrypt (t : List Char) (data : List Char) (key salt : List Nat) : Option (List Nat) :=
  if t = ['1'] then decrypt1 data key
  else if t = ['2'] then decrypt2 data key
  else if t = ['3'] then decrypt3 data key salt
  else none

/-- The pure part of the per-element decode: from the three marker
attributes, either `none` (the element is skipped) or the decoded href
update (if any) together with the new inner markup. -/
def rtDecodeOutcome (key salt : List Nat) (a7391 a5647 aObf : Option (List Char)) :
    Option (Option (List Nat) × List Nat) :=
  if !jsTruthy a7391 || !jsTruthy aObf then none
  else
    let t := aObf.getD []
    if !rtKnownMethod t then none
    else
      let content := rtDecrypt t (a7391.getD []) key salt
      let href := if jsTruthy a5647 then rtDecrypt t (a5647.getD []) key salt else none
      if !jsTruthy content then none
      else some ((if jsTruthy href then some (href.getD []) else none), content.getD [])

/-- One iteration of the decoder's `elements.forEach`: elements without the
`data-7391` attribute are not in the NodeList; a successful decode sets the
`href` (when an href payload decoded), removes the `noscript` child and
replaces the inner markup.  No marker attribute is removed. -/
def rtProcessEl (key salt : List Nat) (el : RtElement) : RtElement :=
  if el.data7391.isNone then el
  else
    match rtDecodeOutcome key salt el.data7391 el.data5647 el.dataObf with
    | none => el
    | some (hrefUpd, newInner) =>
        { el with
            href := (match hrefUpd with | some h => some h | none => el.href)
            hasNoscript := false
            inner := newInner }

/-- The decode pass `deobfuscateContent`: exit early when no element bears
the `data-7391` marker; abort untouched when the meta tag is absent, empty,
or leaves an empty key; otherwise process every marked element with the key
and salt character codes. -/
def deobfuscateContent (d : RtDoc) : RtDoc :=
  if d.elements.all (fun el => el.data7391.isNone) then d
  else
    match getKeyAndSalt d with
    | none => d
    | some (k, s) =>
        if k.isEmpty then d
        else { d with elements :=
          d.elements.map (rtProcessEl (k.map Char.toNat) (s.map Char.toNat)) }

/-! ## Concrete fixtures for counterexamples and witnesses -/

/-- A degenerate random source for concrete runs. -/
def rand0 : Nat → Nat := fun _ => 0

/-- A decoded page state: one element whose method-1 payload `"2a"` decodes
(with key `"k"`, salt `"00000000"` from the meta tag) to the byte `[65]`. -/
def c2Doc : RtDoc :=
  { meta4758 := some "k00000000".toList
    elements := [{ data7391 := some "2a".toList, data5647 := none,
                   dataObf := some "1".toList, href := none,
                   hasNoscript := true, inner := [] }] }

/-- An input document with zero transformable elements (no trigger
attribute) that nevertheless carries a pre-existing `data-7391` attribute. -/
def c3Doc : BDoc :=
  { elements := [{ tagName := "p".toList, dataObfuscation := none, href := none,
                   data7391 := some "x".toList, data5647 := none, inner := [] }]
    metas := [] }

/-- A clean input document with one transformable anchor element. -/
def c3WitDoc : BDoc :=
  { elements := [{ tagName := "a".toList, dataObfuscation := some "1".toList,
                   href := none, data7391 := none, data5647 := none, inner := [65] }]
    metas := [] }

/-- A disallowed `div` element carrying the trigger attribute and a
pre-existing `data-7391` attribute. -/
def c4El : BElement :=
  { tagName := "div".toList, dataObfuscation := some "1".toList, href := none,
    data7391 := some "x".toList, data5647 := none, inner := [] }

/-- A clean disallowed `div` element carrying only the trigger attribute. -/
def c4WitEl : BElement :=
  { tagName := "div".toList, dataObfuscation := some "1".toList, href := none,
    data7391 := none, data5647 := none, inner := [] }

/-- An allowed element whose inner markup is empty, so every encode call
fails on it. -/
def c6El : BElement :=
  { tagName := "a".toList, dataObfuscation := some "1".toList, href := none,
    data7391 := none, data5647 := none, inner := [] }

/-- An allowed anchor element with inner byte `[65]` and method 1
requested. -/
def c8InEl : BElement :=
  { tagName := "a".toList, dataObfuscation := some "1".toList, href := none,
    data7391 := none, data5647 := none, inner := [65] }

/-- The transform of `c8InEl` under key `[107]`, salt `[75]`, fallback
`[70]` and pick 0. -/
def c8OutEl : BElement := (processElement [['a']] [107] [75] [70] 0 c8InEl).1

end AstroMailObfuscation

namespace AstroMailObfuscation

/-! ## Helper lemmas for the method-1 round trip -/

theorem xor_then_xor_cancel (a k : Nat) : a ^^^ k ^^^ k = a := by
  rw [Nat.xor_assoc, Nat.xor_self, Nat.xor_zero]

theorem xor_lt_256 {a b : Nat} (ha : a < 256) (hb : b < 256) : a ^^^ b < 256 := by
  have h := Nat.xor_lt_two_pow (n := 8) (by norm_num at ha ⊢; exact ha)
    (by norm_num at hb ⊢; exact hb)
  norm_num at h
  exact h

theorem getD_lt_of_forall_lt {l : List Nat} (h : ∀ x ∈ l, x < 256) (j : Nat) :
    l.getD j 0 < 256 := by
  induction l generalizing j with
  | nil => simp [List.getD]
  | cons a t ih =>
    cases j with
    | zero => simpa using h a (by simp)
    | succ n =>
      simpa using ih (fun x hx => h x (by simp [hx])) n

theorem xorCyclicFrom_length (key : List Nat) (i : Nat) (c : List Nat) :
    (xorCyclicFrom key i c).length = c.length := by
  induction c generalizing i with
  | nil => rfl
  | cons b rest ih => simp [xorCyclicFrom, ih]

theorem xorCyclicFrom_mem_lt (key : List Nat) (i : Nat) (c : List Nat) :
    ∀ x ∈ xorCyclicFrom key i c, x < 256 := by
  induction c generalizing i with
  | nil => simp [xorCyclicFrom]
  | cons b rest ih =>
    intro x hx
    simp only [xorCyclicFrom, List.mem_cons] at hx
    rcases hx with h | h
    · subst h; exact Nat.mod_lt _ (by norm_num)
    · exact ih (i + 1) x h

theorem xorCyclicFrom_involution (key : List Nat) (hk : ∀ k ∈ key, k < 256) :
    ∀ (i : Nat) (c : List Nat), (∀ b ∈ c, b < 256) →
      xorCyclicFrom key i (xorCyclicFrom key i c) = c := by
  intro i c
  induction c generalizing i with
  | nil => intro _; rfl
  | cons b rest ih =>
    intro h
    have hb : b < 256 := h b (by simp)
    have hkv : key.getD (i % key.length) 0 < 256 := getD_lt_of_forall_lt hk _
    have hxor : b ^^^ key.getD (i % key.length) 0 < 256 := xor_lt_256 hb hkv
    simp only [xorCyclicFrom, List.cons.injEq]
    constructor
    · rw [Nat.mod_eq_of_lt hxor, xor_then_xor_cancel, Nat.mod_eq_of_lt hb]
    · exact ih (i + 1) (fun x hx => h x (by simp [hx]))

theorem hexDigitVal_hexCharOf : ∀ d < 16, hexDigitVal (hexCharOf d) = d := by decide

theorem bytesToHexChars_length (bs : List Nat) :
    (bytesToHexChars bs).length = 2 * bs.length := by
  induction bs with
  | nil => rfl
  | cons b rest ih => simp [bytesToHexChars, ih]; omega

theorem hexPairsToBytes_bytesToHexChars (bs : List Nat) (h : ∀ b ∈ bs, b < 256) :
    hexPairsToBytes (bytesToHexChars bs) = bs := by
  induction bs with
  | nil => rfl
  | cons b rest ih =>
    have hb : b < 256 := h b (by simp)
    simp only [bytesToHexChars, hexPairsToBytes, List.cons.injEq]
    constructor
    · rw [hexDigitVal_hexCharOf (b / 16) (by omega), hexDigitVal_hexCharOf (b % 16) (by omega)]
      omega
    · exact ih (fun x hx => h x (by simp [hx]))

/-- The method-1 round trip: encoding a non-empty byte sequence with a
non-empty byte key and decoding the resulting hex payload with the same key
restores the bytes exactly, and the payload has two hex digits per byte. -/
theorem decrypt1_encrypt1 (content key : List Nat) (hc : content ≠ []) (hk : key ≠ [])
    (hcb : ∀ b ∈ content, b < 256) (hkb : ∀ k ∈ key, k < 256) :
    ∃ e, encrypt1 content key = some e ∧ e.length = 2 * content.length ∧
      decrypt1 e key = some content := by
  have hguard : (content.isEmpty || key.isEmpty) = false := by
    cases content with
    | nil => exact absurd rfl hc
    | cons a t =>
      cases key with
      | nil => exact absurd rfl hk
      | cons b u => rfl
  refine ⟨bytesToHexChars (xorCyclic key content), ?_, ?_, ?_⟩
  · simp [encrypt1, hguard]
  · rw [bytesToHexChars_length, xorCyclic, xorCyclicFrom_length]
  · have hlen : (bytesToHexChars (xorCyclic key content)).length % 2 = 0 := by
      rw [bytesToHexChars_length]; omega
    rw [decrypt1, if_neg (by omega)]
    simp only [xorCyclic]
    rw [hexPairsToBytes_bytesToHexChars _ (xorCyclicFrom_mem_lt key 0 content)]
    rw [xorCyclicFrom_involution key hkb 0 content hcb]

/-! ## Claim C1 -/

/-- Claim C1 (code bug, concrete failing input): the round-trip law fails
for method 3 when the double-XOR result begins with a zero byte.  With
content bytes `[32, 65]` (the string `" A"`), key `"k"` (`[107]`) and salt
`"K"` (`[75]`), the double XOR gives `[0, 97]`; `base62Encode` reads it as
the big integer 97 and prints `"1Z"`, dropping the leading zero byte, so
decoding returns only `[65]` (`"A"`) instead of the original `[32, 65]`. -/
theorem C1_method3_leading_zero_bug :
    encrypt3 [32, 65] [107] [75] = some ['1', 'Z'] ∧
    decrypt3 ['1', 'Z'] [107] [75] = some [65] ∧
    ([65] : List Nat) ≠ [32, 65] := by
  refine ⟨by decide, by decide, by decide⟩

/-! ## Claim C5 -/

/-- Claim C5: for every key of length at least two, the reversal decision
computed by the build-time method-2 encoder equals the one computed by the
runtime method-2 decoder for the same key (both compare the character codes
of the key's last two characters). -/
theorem C5_reversal_symmetry (key : List Nat) (_h : 2 ≤ key.length) :
    encryptShouldReverse key = decryptShouldReverse key := rfl

theorem C5_witness :
    2 ≤ ([10, 20] : List Nat).length ∧
      encryptShouldReverse [10, 20] = decryptShouldReverse [10, 20] :=
  ⟨by decide, C5_reversal_symmetry [10, 20] (by decide)⟩

/-! ## Claim C7 -/

/-- Claim C7 (counterexample): for the Scenario A element the method-1
payloads have hex length 46 (the full `"mailto:test@example.com"` href, 23
bytes) and 32 (the inner text `"test@example.com"`, 16 bytes) — neither is
the claimed 34. -/
theorem C7_counterexample :
    (encrypt1 (strBytes "mailto:test@example.com") keyA).map List.length = some 46 ∧
    (encrypt1 (strBytes "test@example.com") keyA).map List.length = some 32 ∧
    (encrypt1 (strBytes "mailto:test@example.com") keyA).map List.length ≠ some 34 ∧
    (encrypt1 (strBytes "test@example.com") keyA).map List.length ≠ some 34 := by
  refine ⟨by decide, by decide, by decide, by decide⟩

/-- Claim C7 (amended): for every non-empty key of byte values below 256,
method 1 encodes the Scenario A href `"mailto:test@example.com"` into a hex
string of length 46 (23 bytes times 2 digits) and the inner text
`"test@example.com"` into one of length 32 (16 bytes times 2 digits), and
decoding each payload with the same key restores the original exactly. -/
theorem C7_amended_scenarioA (key : List Nat) (hk : key ≠ [])
    (hkb : ∀ k ∈ key, k < 256) :
    ∃ eh ec,
      encrypt1 (strBytes "mailto:test@example.com") key = some eh ∧ eh.length = 46 ∧
      decrypt1 eh key = some (strBytes "mailto:test@example.com") ∧
      encrypt1 (strBytes "test@example.com") key = some ec ∧ ec.length = 32 ∧
      decrypt1 ec key = some (strBytes "test@example.com") := by
  obtain ⟨eh, h1, h2, h3⟩ :=
    decrypt1_encrypt1 (strBytes "mailto:test@example.com") key (by decide) hk (by decide) hkb
  obtain ⟨ec, h4, h5, h6⟩ :=
    decrypt1_encrypt1 (strBytes "test@example.com") key (by decide) hk (by decide) hkb
  have hl1 : (strBytes "mailto:test@example.com").length = 23 := by decide
  have hl2 : (strBytes "test@example.com").length = 16 := by decide
  exact ⟨eh, ec, h1, by rw [h2, hl1], h3, h4, by rw [h5, hl2], h6⟩

theorem C7_witness :
    keyA ≠ [] ∧ (∀ k ∈ keyA, k < 256) ∧
      ∃ eh ec,
        encrypt1 (strBytes "mailto:test@example.com") keyA = some eh ∧ eh.length = 46 ∧
        decrypt1 eh keyA = some (strBytes "mailto:test@example.com") ∧
        encrypt1 (strBytes "test@example.com") keyA = some ec ∧ ec.length = 32 ∧
        decrypt1 ec keyA = some (strBytes "test@example.com") :=
  ⟨by decide, by decide, C7_amended_scenarioA keyA (by decide) (by decide)⟩

/-! ## Helper lemmas about the build-time transform -/

theorem isNone_eq_false_of_isSome {α : Type} {o : Option α} (h : o.isSome = true) :
    o.isNone = false := by
  cases o with
  | none => simp at h
  | some v => rfl

/-- A selected element on a disallowed tag is returned unchanged with one
diagnostic. -/
theorem processElement_skip (tags : List (List Char)) (key salt fallback : List Nat)
    (pick : Nat) (el : BElement) (hsel : el.dataObfuscation.isSome = true)
    (htag : lowerStr el.tagName ∉ tags) :
    processElement tags key salt fallback pick el =
      (el, false, [BuildLog.skippedTag (lowerStr el.tagName)]) := by
  have h0 := isNone_eq_false_of_isSome hsel
  simp [processElement, h0, htag]

/-- A selected, allowed element whose content encoding fails is returned
unchanged with one diagnostic. -/
theorem processElement_fail (tags : List (List Char)) (key salt fallback : List Nat)
    (pick : Nat) (el : BElement) (hsel : el.dataObfuscation.isSome = true)
    (htag : lowerStr el.tagName ∈ tags)
    (hc : encryptFor (resolvedMethod pick (el.dataObfuscation.getD [])) el.inner key salt = none) :
    processElement tags key salt fallback pick el = (el, false, [BuildLog.encryptFailed]) := by
  have h0 := isNone_eq_false_of_isSome hsel
  simp [processElement, h0, htag, hc, jsTruthy]

theorem pickMethodStr_cases (pick : Nat) :
    pickMethodStr pick = ['1'] ∨ pickMethodStr pick = ['2'] ∨ pickMethodStr pick = ['3'] := by
  unfold pickMethodStr
  split
  · exact Or.inl rfl
  · split
    · exact Or.inr (Or.inl rfl)
    · exact Or.inr (Or.inr rfl)

theorem resolvedMethod_cases (pick : Nat) (t : List Char) :
    resolvedMethod pick t = ['1'] ∨ resolvedMethod pick t = ['2'] ∨
      resolvedMethod pick t = ['3'] := by
  unfold resolvedMethod
  split
  · assumption
  · exact pickMethodStr_cases pick

/-- An encode call of any of the three methods returns `none` exactly on
empty content, empty key, or — for method 3 — an empty salt. -/
theorem encryptFor_eq_none_iff (m : List Char) (content key salt : List Nat)
    (hm : m = ['1'] ∨ m = ['2'] ∨ m = ['3']) :
    encryptFor m content key salt = none ↔
      content = [] ∨ key = [] ∨ (m = ['3'] ∧ salt = []) := by
  have h13 : (['1'] : List Char) ≠ ['3'] := by decide
  have h23 : (['2'] : List Char) ≠ ['3'] := by decide
  rcases hm with rfl | rfl | rfl
  · cases content <;> cases key <;> simp [encryptFor, encrypt1, h13]
  · cases content <;> cases key <;> simp [encryptFor, encrypt2, h23]
  · cases content <;> cases key <;> cases salt <;> simp [encryptFor, encrypt3]

/-- Shape of one element transform: either the element is returned
unchanged and the transformed flag is false, or the flag is true and the
result carries a `data-7391` payload attribute. -/
theorem processElement_shape (tags : List (List Char)) (key salt fallback : List Nat)
    (pick : Nat) (el : BElement) :
    ((processElement tags key salt fallback pick el).1 = el ∧
      (processElement tags key salt fallback pick el).2.1 = false) ∨
    ((processElement tags key salt fallback pick el).2.1 = true ∧
      (processElement tags key salt fallback pick el).1.data7391.isSome = true) := by
  simp only [processElement]
  split
  · exact Or.inl ⟨rfl, rfl⟩
  · split
    · split
      · exact Or.inr ⟨rfl, rfl⟩
      · exact Or.inl ⟨rfl, rfl⟩
    · exact Or.inl ⟨rfl, rfl⟩

/-- Over a document whose elements carry no pre-existing payload
attributes, the output contains a payload attribute iff some element was
transformed. -/
theorem runElements_flag (tags : List (List Char)) (key salt fallback : List Nat)
    (rand : Nat → Nat) : ∀ (i : Nat) (els : List BElement),
    (∀ el ∈ els, el.data7391 = none ∧ el.data5647 = none) →
    (((runElements tags key salt fallback rand i els).1.any fun e => e.data5647.isSome) ||
        ((runElements tags key salt fallback rand i els).1.any fun e => e.data7391.isSome)) =
      (runElements tags key salt fallback rand i els).2.1 := by
  intro i els
  induction els generalizing i with
  | nil => intro _; rfl
  | cons el rest ih =>
    intro h
    have hel := h el (by simp)
    have hrest := ih (i + 1) (fun x hx => h x (by simp [hx]))
    simp only [runElements]
    rcases processElement_shape tags key salt fallback (rand i) el with ⟨h1, h2⟩ | ⟨h2, h3⟩
    · simp only [List.any_cons, h1, h2, hel.1, hel.2, Option.isSome_none, Bool.false_or]
      rw [← hrest]
    · simp [List.any_cons, h2, h3]

/-! ## Claim C3 -/

/-- Claim C3 (counterexample): an input document whose only element carries
a pre-existing `data-7391` attribute but no trigger attribute has zero
transformed elements (the transform leaves all elements unchanged), yet the
output gains a metadata tag — the emission check queries attribute
presence, not the transform count. -/
theorem C3_preexisting_marker_emits_metadata :
    (runElements (mergeAllowedTags none) [107] [75] [70] rand0 0 c3Doc.elements).2.1 = false ∧
    (modifyHtml (mergeAllowedTags none) [107] [75] [70] rand0 c3Doc).1.elements =
      c3Doc.elements ∧
    (modifyHtml (mergeAllowedTags none) [107] [75] [70] rand0 c3Doc).1.metas.length = 1 := by
  refine ⟨by decide, by decide, by decide⟩

/-- Claim C3 (amended): for input documents free of pre-existing payload
attributes and pre-existing metadata tags, the output carries exactly one
metadata tag (key concatenated with salt) when at least one element was
transformed and zero metadata tags otherwise. -/
theorem C3_metadata_emission (tags : List (List Char)) (key salt fallback : List Nat)
    (rand : Nat → Nat) (d : BDoc) (hm : d.metas = [])
    (hclean : ∀ el ∈ d.elements, el.data7391 = none ∧ el.data5647 = none) :
    (modifyHtml tags key salt fallback rand d).1.metas =
      (if (runElements tags key salt fallback rand 0 d.elements).2.1
        then [key ++ salt] else []) := by
  have hflag := runElements_flag tags key salt fallback rand 0 d.elements hclean
  simp only [modifyHtml]
  rw [hflag, hm]
  split <;> rfl

theorem C3_metadata_emission_witness :
    c3WitDoc.metas = [] ∧
    (∀ el ∈ c3WitDoc.elements, el.data7391 = none ∧ el.data5647 = none) ∧
    (modifyHtml [['a']] [107] [75] [70] rand0 c3WitDoc).1.metas =
      (if (runElements [['a']] [107] [75] [70] rand0 0 c3WitDoc.elements).2.1
        then [[107] ++ [75]] else []) :=
  ⟨rfl, by decide, C3_metadata_emission [['a']] [107] [75] [70] rand0 c3WitDoc rfl (by decide)⟩

/-! ## Claim C4 -/

/-- Claim C4 (counterexample): a disallowed `div` carrying the trigger
attribute is indeed left unchanged with a diagnostic — but when it also
carries a pre-existing `data-7391` attribute it alone makes the transform
append a metadata tag, so the "never causes a metadata tag" part of the
claim fails. -/
theorem C4_skipped_element_can_cause_metadata :
    (modifyHtml (mergeAllowedTags none) [107] [75] [70] rand0 ⟨[c4El], []⟩).1.elements =
      [c4El] ∧
    (modifyHtml (mergeAllowedTags none) [107] [75] [70] rand0 ⟨[c4El], []⟩).2 =
      [BuildLog.skippedTag ['d', 'i', 'v']] ∧
    (modifyHtml (mergeAllowedTags none) [107] [75] [70] rand0 ⟨[c4El], []⟩).1.metas.length
      = 1 := by
  refine ⟨by decide, by decide, by decide⟩

/-- Claim C4 (amended): an element carrying the trigger attribute whose
lowercased tag is outside the merged allowed-tag set is returned unchanged
with one diagnostic; and provided it carries no pre-existing payload
attribute, a document containing it alone gains no metadata tag. -/
theorem C4_whitelist_enforcement (userTags : Option (List (List Char)))
    (key salt fallback : List Nat) (pick : Nat) (el : BElement) (rand : Nat → Nat)
    (hsel : el.dataObfuscation.isSome = true)
    (htag : lowerStr el.tagName ∉ mergeAllowedTags userTags)
    (h7 : el.data7391 = none) (h5 : el.data5647 = none) :
    processElement (mergeAllowedTags userTags) key salt fallback pick el =
      (el, false, [BuildLog.skippedTag (lowerStr el.tagName)]) ∧
    modifyHtml (mergeAllowedTags userTags) key salt fallback rand ⟨[el], []⟩ =
      (⟨[el], []⟩, [BuildLog.skippedTag (lowerStr el.tagName)]) := by
  refine ⟨processElement_skip _ key salt fallback pick el hsel htag, ?_⟩
  have hskip := processElement_skip (mergeAllowedTags userTags) key salt fallback (rand 0)
    el hsel htag
  simp [modifyHtml, runElements, hskip, h7, h5]

theorem C4_whitelist_enforcement_witness :
    processElement (mergeAllowedTags none) [107] [75] [70] 0 c4WitEl =
      (c4WitEl, false, [BuildLog.skippedTag (lowerStr c4WitEl.tagName)]) ∧
    modifyHtml (mergeAllowedTags none) [107] [75] [70] rand0 ⟨[c4WitEl], []⟩ =
      (⟨[c4WitEl], []⟩, [BuildLog.skippedTag (lowerStr c4WitEl.tagName)]) :=
  C4_whitelist_enforcement none [107] [75] [70] 0 c4WitEl rand0 (by decide) (by decide) rfl rfl

/-! ## Claim C6 -/

/-- Claim C6: (1) an encode call of any method signals failure (`none`)
exactly when the content is empty, the key is empty, or — method 3 — the
salt is empty; (2) when encoding fails for the inner-content field or for a
non-empty href field of a qualifying element, the transform returns the
element entirely unchanged (no attribute added, no child replaced, href
kept), transformed flag false, one failure diagnostic. -/
theorem C6_encode_failure_atomicity :
    (∀ (m : List Char) (content key salt : List Nat),
        m = ['1'] ∨ m = ['2'] ∨ m = ['3'] →
        (encryptFor m content key salt = none ↔
          content = [] ∨ key = [] ∨ (m = ['3'] ∧ salt = []))) ∧
    (∀ (tags : List (List Char)) (key salt fallback : List Nat) (pick : Nat) (el : BElement),
        el.dataObfuscation.isSome = true →
        lowerStr el.tagName ∈ tags →
        (encryptFor (resolvedMethod pick (el.dataObfuscation.getD [])) el.inner key salt
            = none ∨
          (el.href.getD [] ≠ [] ∧
            encryptFor (resolvedMethod pick (el.dataObfuscation.getD []))
              (el.href.getD []) key salt = none)) →
        processElement tags key salt fallback pick el =
          (el, false, [BuildLog.encryptFailed])) := by
  constructor
  · exact fun m c k s hm => encryptFor_eq_none_iff m c k s hm
  · intro tags key salt fallback pick el hsel htag hfail
    have hmcases := resolvedMethod_cases pick (el.dataObfuscation.getD [])
    rcases hfail with hc | ⟨hhref, hhrefnone⟩
    · exact processElement_fail tags key salt fallback pick el hsel htag hc
    · have hwhy := (encryptFor_eq_none_iff _ _ key salt hmcases).mp hhrefnone
      rcases hwhy with h | h | h
      · exact absurd h hhref
      · exact processElement_fail tags key salt fallback pick el hsel htag
          ((encryptFor_eq_none_iff _ _ key salt hmcases).mpr (Or.inr (Or.inl h)))
      · exact processElement_fail tags key salt fallback pick el hsel htag
          ((encryptFor_eq_none_iff _ _ key salt hmcases).mpr (Or.inr (Or.inr h)))

theorem C6_witness :
    encryptFor ['3'] [65] [107] [] = none ∧
    processElement [['a']] [107] [75] [70] 0 c6El = (c6El, false, [BuildLog.encryptFailed]) := by
  constructor
  · exact (C6_encode_failure_atomicity.1 ['3'] [65] [107] [] (by decide)).mpr
      (Or.inr (Or.inr ⟨rfl, rfl⟩))
  · exact C6_encode_failure_atomicity.2 [['a']] [107] [75] [70] 0 c6El (by decide) (by decide)
      (Or.inl (by decide))

/-! ## Claim C8 -/

/-- Claim C8: whatever the trigger attribute's value in the input, every
element the transform actually rewrites gets a method id from
{"1", "2", "3"} — never "0" — written into its `data-obfuscation`
attribute, so runtime dispatch is unambiguous. -/
theorem C8_resolved_method (tags : List (List Char)) (key salt fallback : List Nat)
    (pick : Nat) (el el' : BElement) (logs : List BuildLog)
    (h : processElement tags key salt fallback pick el = (el', true, logs)) :
    (el'.dataObfuscation = some ['1'] ∨ el'.dataObfuscation = some ['2'] ∨
      el'.dataObfuscation = some ['3']) ∧ el'.dataObfuscation ≠ some ['0'] := by
  simp only [processElement] at h
  split at h
  · simp at h
  · split at h
    · split at h
      · simp only [Prod.mk.injEq] at h
        obtain ⟨h1, -, -⟩ := h
        have hobf : el'.dataObfuscation =
            some (resolvedMethod pick (el.dataObfuscation.getD [])) := by
          rw [← h1]
        rcases resolvedMethod_cases pick (el.dataObfuscation.getD []) with hm | hm | hm <;>
          rw [hobf, hm] <;> exact ⟨by simp, by decide⟩
      · simp at h
    · simp at h

theorem C8_witness :
    (c8OutEl.dataObfuscation = some ['1'] ∨ c8OutEl.dataObfuscation = some ['2'] ∨
      c8OutEl.dataObfuscation = some ['3']) ∧ c8OutEl.dataObfuscation ≠ some ['0'] :=
  C8_resolved_method [['a']] [107] [75] [70] 0 c8InEl c8OutEl [] (by decide)

/-! ## Claim C10 -/

theorem getD_mem_of_default_mem {l : List Char} {d : Char} (hd : d ∈ l) (n : Nat) :
    l.getD n d ∈ l := by
  rcases Nat.lt_or_ge n l.length with h | h
  · rw [List.getD_eq_getElem l d h]
    exact List.getElem_mem h
  · rw [List.getD_eq_default l d h]
    exact hd

theorem hexCharOf_mem (d : Nat) : hexCharOf d ∈ hexChars :=
  getD_mem_of_default_mem (by decide) d

theorem bytesToHexChars_mem (bs : List Nat) : ∀ c ∈ bytesToHexChars bs, c ∈ hexChars := by
  induction bs with
  | nil => simp [bytesToHexChars]
  | cons b rest ih =>
    intro c hc
    simp only [bytesToHexChars, List.mem_cons] at hc
    rcases hc with rfl | rfl | h
    · exact hexCharOf_mem _
    · exact hexCharOf_mem _
    · exact ih c h

/-- Claim C10: supplying `userKey` or `userSalt` as the empty string is
falsy, so the integration silently falls back to a freshly generated
secret — a 32-character key over the lowercase-hex alphabet from 16 random
bytes, an 8-character salt over the alphanumeric alphabet from 8 random
bytes — exactly as if the option had been omitted. -/
theorem C10_falsy_override (randK randS : List Nat)
    (hK : randK.length = 16) (hS : randS.length = 8) :
    resolveUserKey (some []) randK = generateUserKey randK ∧
    resolveUserKey (some []) randK = resolveUserKey none randK ∧
    (resolveUserKey (some []) randK).length = 32 ∧
    (∀ c ∈ resolveUserKey (some []) randK, c ∈ hexChars) ∧
    resolveUserSalt (some []) randS = generateUserSalt randS ∧
    resolveUserSalt (some []) randS = resolveUserSalt none randS ∧
    (resolveUserSalt (some []) randS).length = 8 ∧
    (∀ c ∈ resolveUserSalt (some []) randS, c ∈ saltChars) := by
  refine ⟨rfl, rfl, ?_, ?_, rfl, rfl, ?_, ?_⟩
  · show (generateUserKey randK).length = 32
    rw [generateUserKey, bytesToHexChars_length, hK]
  · show ∀ c ∈ generateUserKey randK, c ∈ hexChars
    exact bytesToHexChars_mem randK
  · show (generateUserSalt randS).length = 8
    rw [generateUserSalt, List.length_map, hS]
  · show ∀ c ∈ generateUserSalt randS, c ∈ saltChars
    intro c hc
    rw [generateUserSalt, List.mem_map] at hc
    obtain ⟨b, -, rfl⟩ := hc
    exact getD_mem_of_default_mem (by decide) _

theorem C10_witness :
    (List.range 16).length = 16 ∧ (List.range 8).length = 8 ∧
    (resolveUserKey (some []) (List.range 16) = generateUserKey (List.range 16) ∧
      resolveUserKey (some []) (List.range 16) = resolveUserKey none (List.range 16) ∧
      (resolveUserKey (some []) (List.range 16)).length = 32 ∧
      (∀ c ∈ resolveUserKey (some []) (List.range 16), c ∈ hexChars) ∧
      resolveUserSalt (some []) (List.range 8) = generateUserSalt (List.range 8) ∧
      resolveUserSalt (some []) (List.range 8) = resolveUserSalt none (List.range 8) ∧
      (resolveUserSalt (some []) (List.range 8)).length = 8 ∧
      (∀ c ∈ resolveUserSalt (some []) (List.range 8), c ∈ saltChars)) :=
  ⟨by decide, by decide, C10_falsy_override (List.range 16) (List.range 8)
    (by decide) (by decide)⟩

/-! ## Claim C2 -/

theorem rtProcessEl_attrs (key salt : List Nat) (el : RtElement) :
    (rtProcessEl key salt el).data7391 = el.data7391 ∧
    (rtProcessEl key salt el).data5647 = el.data5647 ∧
    (rtProcessEl key salt el).dataObf = el.dataObf := by
  simp only [rtProcessEl]
  split
  · exact ⟨rfl, rfl, rfl⟩
  · split
    · exact ⟨rfl, rfl, rfl⟩
    · exact ⟨rfl, rfl, rfl⟩

theorem rtProcessEl_idem (key salt : List Nat) (el : RtElement) :
    rtProcessEl key salt (rtProcessEl key salt el) = rtProcessEl key salt el := by
  by_cases h0 : el.data7391.isNone
  · have h1 : rtProcessEl key salt el = el := by simp [rtProcessEl, h0]
    rw [h1]; exact h1
  · cases hout : rtDecodeOutcome key salt el.data7391 el.data5647 el.dataObf with
    | none =>
      have h1 : rtProcessEl key salt el = el := by simp [rtProcessEl, h0, hout]
      rw [h1]; exact h1
    | some pr =>
      obtain ⟨hu, c⟩ := pr
      cases hu with
      | some h =>
        have h1 : rtProcessEl key salt el =
            { el with href := some h, hasNoscript := false, inner := c } := by
          simp [rtProcessEl, h0, hout]
        rw [h1]
        simp [rtProcessEl, h0, hout]
      | none =>
        have h1 : rtProcessEl key salt el =
            { el with href := el.href, hasNoscript := false, inner := c } := by
          simp [rtProcessEl, h0, hout]
        rw [h1]
        simp [rtProcessEl, h0, hout]

theorem map_rtProcessEl_all (key salt : List Nat) (l : List RtElement) :
    ((l.map (rtProcessEl key salt)).all fun el => el.data7391.isNone) =
      (l.all fun el => el.data7391.isNone) := by
  induction l with
  | nil => rfl
  | cons a t ih => simp only [List.map_cons, List.all_cons,
      (rtProcessEl_attrs key salt a).1, ih]

theorem map_rtProcessEl_idem (key salt : List Nat) (l : List RtElement) :
    (l.map (rtProcessEl key salt)).map (rtProcessEl key salt) = l.map (rtProcessEl key salt) := by
  induction l with
  | nil => rfl
  | cons a t ih => simp only [List.map_cons, rtProcessEl_idem, ih]

/-- Claim C2 (counterexample): on a page state reached by one successful
decode pass — the payload decoded into the inner markup and the `noscript`
child removed — the marker attributes `data-7391` and `data-obfuscation`
are still present on the decoded element. -/
theorem C2_marker_attributes_remain :
    (deobfuscateContent c2Doc).elements.map (fun el => el.inner) = [[65]] ∧
    (deobfuscateContent c2Doc).elements.map (fun el => el.hasNoscript) = [false] ∧
    (deobfuscateContent c2Doc).elements.map (fun el => el.data7391) = [some ['2', 'a']] ∧
    (deobfuscateContent c2Doc).elements.map (fun el => el.dataObf) = [some ['1']] := by
  refine ⟨by decide, by decide, by decide, by decide⟩

/-- Claim C2 (amended): the decode pass is idempotent as a state
transformation — running it a second time on any document state (in
particular on a state already produced by one run) changes nothing — but
the marker attributes are never removed; re-processing of a rendered page
is prevented by the `decryptionPerformed` flag, not by attribute removal. -/
theorem C2_decode_pass_idempotent (d : RtDoc) :
    deobfuscateContent (deobfuscateContent d) = deobfuscateContent d := by
  by_cases hall : d.elements.all (fun el => el.data7391.isNone)
  · have h1 : deobfuscateContent d = d := by simp [deobfuscateContent, hall]
    rw [h1]; exact h1
  · cases hks : getKeyAndSalt d with
    | none =>
      have h1 : deobfuscateContent d = d := by simp [deobfuscateContent, hall, hks]
      rw [h1]; exact h1
    | some pr =>
      obtain ⟨k, s⟩ := pr
      by_cases hk : k.isEmpty
      · have h1 : deobfuscateContent d = d := by simp [deobfuscateContent, hall, hks, hk]
        rw [h1]; exact h1
      · have h1 : deobfuscateContent d =
            ⟨d.meta4758, d.elements.map (rtProcessEl (k.map Char.toNat) (s.map Char.toNat))⟩ := by
          simp [deobfuscateContent, hall, hks, hk]
        rw [h1]
        have hall2 : ¬ (((d.elements.map
            (rtProcessEl (k.map Char.toNat) (s.map Char.toNat))).all
              fun el => el.data7391.isNone) = true) := by
          rw [map_rtProcessEl_all]
          exact hall
        have hks2 : getKeyAndSalt
            ⟨d.meta4758, d.elements.map (rtProcessEl (k.map Char.toNat) (s.map Char.toNat))⟩ =
            some (k, s) := hks
        simp [deobfuscateContent, hall2, hks2, hk, map_rtProcessEl_idem]
        intro a _
        exact rtProcessEl_idem _ _ a

end AstroMailObfuscation
